import Mathlib

/-
Verification development for the bedrock-chat-agent repository.

The repository deploys a data-indexing and query-serving subsystem: a sync
job ingests CSV files from a GitHub repository into a DuckDB index stored in
S3, and a query Lambda exposes tool operations (query_data, list_tables,
describe_table, list_repo_files, read_repo_file) to a Bedrock agent.

The CDK stack (lib/chat-agent-stack.ts, bin/app.ts) is embedded directly
from its TypeScript source.  The Python Lambda bodies (lambda/sync/index.py,
lambda/query/index.py) are not part of the analysed sources, so their
behaviour is modelled from the specification, as marked on each definition.

All text is represented as lists of characters so that every definition
evaluates by kernel reduction.
-/

deriving instance DecidableEq for Except

namespace BedrockAgent

set_option maxRecDepth 400000

/-- Character list of a string literal. -/
def chars (s : String) : List Char := s.data

/-- Whitespace test used by the tokenizer. -/
def isSpaceChar (c : Char) : Bool :=
  c = ' ' || c = '\n' || c = '\t' || c = '\r'

/-- Split a character list at every character satisfying the predicate.
Always returns a non-empty list of (possibly empty) groups. -/
def splitWhen (p : Char → Bool) : List Char → List (List Char)
  | [] => [[]]
  | x :: xs =>
    if p x then [] :: splitWhen p xs
    else
      match splitWhen p xs with
      | [] => [[x]]
      | g :: gs => (x :: g) :: gs

/-- Split a character list at every occurrence of a given character. -/
def splitOnChar (c : Char) (s : List Char) : List (List Char) :=
  splitWhen (fun x => x = c) s

/-- Join groups with a separator character; left inverse of splitOnChar. -/
def joinWith (c : Char) : List (List Char) → List Char
  | [] => []
  | [g] => g
  | g :: gs => g ++ c :: joinWith c gs

/-- Non-empty whitespace-separated words of a character list. -/
def wordsOf (s : List Char) : List (List Char) :=
  (splitWhen isSpaceChar s).filter (fun w => !w.isEmpty)

/-- Uppercase an ASCII letter, leaving other characters unchanged. -/
def upperChar (c : Char) : Char :=
  if 97 ≤ c.toNat ∧ c.toNat ≤ 122 then Char.ofNat (c.toNat - 32) else c

/-- Drop one leading sign character, if present. -/
def stripSign : List Char → List Char
  | [] => []
  | c :: cs => if c = '-' ∨ c = '+' then cs else c :: cs

/-! ### Query engine: SQL statement-kind inspection and execution -/

/-- Statement kinds recognized by statement-kind inspection. -/
inductive StmtKind where
  | select
  | insert
  | update
  | delete
  | drop
  | create
  | alter
  | truncate
  | other
deriving DecidableEq

/-- Modelled from the spec: the query Lambda (lambda/query/index.py is not
among the analysed sources) detects the kind of a statement by inspecting
its leading keyword after tokenization, not by keyword blacklisting inside
the text. -/
def stmtKindOf (s : String) : StmtKind :=
  let kw := ((wordsOf s.data).headD []).map upperChar
  if kw = chars ("SELECT") ∨ kw = chars ("WITH") then .select
  else if kw = chars ("INSERT") then .insert
  else if kw = chars ("UPDATE") then .update
  else if kw = chars ("DELETE") then .delete
  else if kw = chars ("DROP") then .drop
  else if kw = chars ("CREATE") then .create
  else if kw = chars ("ALTER") then .alter
  else if kw = chars ("TRUNCATE") then .truncate
  else .other

/-- A statement kind that attempts data modification or schema
modification. -/
def isModifyingKind : StmtKind → Bool
  | .insert => true
  | .update => true
  | .delete => true
  | .drop => true
  | .create => true
  | .alter => true
  | .truncate => true
  | _ => false

/-- Modelled from the spec: a request is multi-statement when it contains
more than one non-blank semicolon-separated statement. -/
def multiStatement (s : String) : Bool :=
  (((splitOnChar ';' s.data).map (fun t => t.filter (fun c => !isSpaceChar c))).filter
    (fun t => !t.isEmpty)).length > 1

/-- Structured tool-call errors of the error taxonomy. -/
inductive ToolErr where
  | policyViolation
  | tableNotFound
  | notFound
  | invalidPath
  | invalidArgument
  | tooLarge
  | malformedSql
deriving DecidableEq

/-- One materialized table of the dataset snapshot. -/
structure Table where
  name : List Char
  srcPath : List Char
  header : List (List Char)
  rows : List (List (List Char))
deriving DecidableEq

/-- The queryable materialization of all current tables, tagged with the
sync generation that built it. -/
structure DatasetSnapshot where
  tables : List Table
  generation : Nat
deriving DecidableEq

/-- Result of a query: ordered column names, rows, and a truncation flag. -/
structure QueryResult where
  columns : List (List Char)
  rows : List (List (List Char))
  truncated : Bool
deriving DecidableEq

/-- Hard result cap on returned rows (default 100 per the spec). -/
def rowCap : Nat := 100

/-- Modelled from the spec: evaluation of a single read-only statement of
the shape SELECT * FROM t against the current dataset snapshot, returning
the full (uncapped) result rows in input order. -/
def selectRows (sql : String) (ds : DatasetSnapshot) :
    Except ToolErr (List (List Char) × List (List (List Char))) :=
  match wordsOf sql.data with
  | [w1, w2, w3, w4] =>
    if w1.map upperChar = chars ("SELECT") ∧ w2 = chars ("*") ∧
        w3.map upperChar = chars ("FROM") then
      match ds.tables.find? (fun t => t.name == w4) with
      | some t => .ok (t.header, t.rows)
      | none => .error .tableNotFound
    else .error .malformedSql
  | _ => .error .malformedSql

/-- Modelled from the spec: the query engine of the query Lambda.  It
rejects multi-statement input and any statement whose kind is not a
read-only SELECT with a PolicyViolation, and caps the result at rowCap
rows, setting the truncation flag instead of failing. -/
def execute (sql : String) (ds : DatasetSnapshot) : Except ToolErr QueryResult :=
  if multiStatement sql then .error .policyViolation
  else
    match stmtKindOf sql with
    | .select =>
      match selectRows sql ds with
      | .error e => .error e
      | .ok (cols, raw) => .ok ⟨cols, raw.take rowCap, decide (rowCap < raw.length)⟩
    | _ => .error .policyViolation

/-! ### Table indexer: schema inference -/

/-- Semantic column types inferred by the indexer. -/
inductive ColType where
  | integer
  | float
  | text
  | boolean
  | date
  | unknown
deriving DecidableEq

/-- Modelled from the spec: a value parses as an integer when, after an
optional sign, it is a non-empty digit string. -/
def isIntLit (s : List Char) : Bool :=
  let t := stripSign s
  !t.isEmpty && t.all Char.isDigit

/-- Modelled from the spec: a value parses as numeric when, after an
optional sign, it consists of digits with at most one decimal point and at
least one digit. -/
def isNumericLit (s : List Char) : Bool :=
  let t := stripSign s
  !t.isEmpty && t.any Char.isDigit &&
    t.all (fun c => c.isDigit || c == '.') && t.count '.' ≤ 1

/-- Modelled from the spec: the closed set of boolean literals. -/
def boolLits : List (List Char) :=
  [chars ("true"), chars ("false"), chars ("True"), chars ("False"),
   chars ("TRUE"), chars ("FALSE")]

/-- Membership in the closed set of boolean literals. -/
def isBoolLit (s : List Char) : Bool :=
  boolLits.contains s

/-- Modelled from the spec: the recognized date pattern YYYY-MM-DD. -/
def isDateLit (s : List Char) : Bool :=
  match s with
  | [y1, y2, y3, y4, h1, m1, m2, h2, d1, d2] =>
    ([y1, y2, y3, y4, m1, m2, d1, d2].all Char.isDigit) && h1 == '-' && h2 == '-'
  | _ => false

/-- Fixed number of leading rows sampled for type inference. -/
def sampleWindow : Nat := 100

/-- The sampled non-null values of a column: the fixed leading window, with
nulls removed. -/
def sampledNonNull (vals : List (Option (List Char))) : List (List Char) :=
  (vals.take sampleWindow).filterMap id

/-- Modelled from the spec: the type-inference policy of the indexer
(lambda/sync/index.py is not among the analysed sources).  Over the sampled
non-null values: integer if all parse as integers; float if all parse as
numeric; boolean if all are boolean literals; date if all match the date
pattern; else text; an entirely-null column is unknown. -/
def inferColType (vals : List (Option (List Char))) : ColType :=
  let nn := sampledNonNull vals
  if nn.isEmpty then .unknown
  else if nn.all isIntLit then .integer
  else if nn.all isNumericLit then .float
  else if nn.all isBoolLit then .boolean
  else if nn.all isDateLit then .date
  else .text

/-! ### Table indexer: CSV parsing and reindexing -/

/-- One raw file of a fetched repository snapshot. -/
structure RawFile where
  path : List Char
  content : List Char
deriving DecidableEq

/-- A fetched state of the remote repository: the stored file tree. -/
structure RepoSnapshot where
  files : List RawFile
deriving DecidableEq

/-- Modelled from the spec: CSV parsing.  The non-blank lines are split on
commas; a file with no lines, or a data row whose column count differs from
the header, is malformed. -/
def parseCSV (content : List Char) :
    Except (List Char) (List (List Char) × List (List (List Char))) :=
  match (splitOnChar '\n' content).filter (fun l => !l.isEmpty) with
  | [] => .error (chars ("empty file"))
  | h :: rs =>
    let hdr := splitOnChar ',' h
    let rows := rs.map (fun r => splitOnChar ',' r)
    if rows.all (fun r => r.length == hdr.length) then .ok (hdr, rows)
    else .error (chars ("row with mismatched column count"))

/-- The tabular-file selector: files ending in .csv are eligible. -/
def isCSVPath (p : List Char) : Bool :=
  (chars (".csv")).isSuffixOf p

/-- Deterministic table name derived from a source file path: the basename
without its extension. -/
def tableNameOf (p : List Char) : List Char :=
  match splitOnChar '.' ((splitOnChar '/' p).getLastD []) with
  | [] => []
  | st :: _ => st

/-- A per-table indexing failure, naming the failed file (the
PartialIndexFailure of the error taxonomy). -/
structure IndexFailure where
  path : List Char
  cause : List Char
deriving DecidableEq

/-- Modelled from the spec: indexing one eligible file, producing a table
or an isolated per-table failure naming the file. -/
def indexFile (f : RawFile) : Except IndexFailure Table :=
  match parseCSV f.content with
  | .error e => .error ⟨f.path, e⟩
  | .ok (hdr, rows) => .ok ⟨tableNameOf f.path, f.path, hdr, rows⟩

/-- Whether an eligible file parses cleanly. -/
def parseOK (f : RawFile) : Bool :=
  (parseCSV f.content).toOption.isSome

/-- Modelled from the spec: indexing every eligible file in order,
collecting the tables of well-formed files and one failure per bad file,
never aborting the run. -/
def indexAll : List RawFile → List Table × List IndexFailure
  | [] => ([], [])
  | f :: fs =>
    let r := indexAll fs
    match indexFile f with
    | .ok t => (t :: r.1, r.2)
    | .error e => (r.1, e :: r.2)

/-- The eligible (tabular) files of a snapshot. -/
def csvFiles (snap : RepoSnapshot) : List RawFile :=
  snap.files.filter (fun f => isCSVPath f.path)

/-- Modelled from the spec: one reindex pass over a repository snapshot. -/
def buildTables (snap : RepoSnapshot) : List Table × List IndexFailure :=
  indexAll (csvFiles snap)

/-- One indexed table of the catalog. -/
structure TableEntry where
  name : List Char
  srcPath : List Char
  columns : List (List Char × ColType)
  rowCount : Nat
deriving DecidableEq

/-- The i-th column of a row list as optional values (empty cell = null). -/
def columnOptVals (rows : List (List (List Char))) (i : Nat) :
    List (Option (List Char)) :=
  rows.map (fun r => match r.getD i [] with
    | [] => none
    | v => some v)

/-- Inferred column list (name and semantic type) of a table. -/
def inferColumns (hdr : List (List Char)) (rows : List (List (List Char))) :
    List (List Char × ColType) :=
  (List.range hdr.length).map (fun i => (hdr.getD i [], inferColType (columnOptVals rows i)))

/-- Durable record of the indexed tables of one sync generation. -/
structure Catalog where
  entries : List TableEntry
  generation : Nat
deriving DecidableEq

/-- Catalog built from a table list for a given generation. -/
def catalogOf (gen : Nat) (ts : List Table) : Catalog :=
  ⟨ts.map (fun t => ⟨t.name, t.srcPath, inferColumns t.header t.rows, t.rows.length⟩), gen⟩

/-- One complete, atomically published version of the Catalog plus
DatasetSnapshot pair. -/
structure Generation where
  catalog : Catalog
  snapshot : DatasetSnapshot
deriving DecidableEq

/-- Modelled from the spec: one sync run builds the new catalog and dataset
snapshot wholesale from the same reindex pass, returning the per-table
failure list alongside. -/
def buildGeneration (gen : Nat) (snap : RepoSnapshot) :
    Generation × List IndexFailure :=
  let r := buildTables snap
  (⟨catalogOf gen r.1, ⟨r.1, gen⟩⟩, r.2)

/-! ### System state: atomic generation swap and the query path -/

/-- Durable system state: the published generation readers resolve through
a single atomic pointer; an in-progress sync builds a staged generation
that is invisible to readers until published. -/
structure SystemState where
  published : Generation
  staged : Option Generation
  genCounter : Nat
deriving DecidableEq

/-- State before the first sync: the generation built from an empty
repository snapshot. -/
def initState : SystemState :=
  ⟨(buildGeneration 0 ⟨[]⟩).1, none, 0⟩

/-- Modelled from the spec: the transitions of the system.  A sync run
first stages a freshly built generation (invisible to readers), then
publishes it with a single atomic pointer swap; read-only operations leave
the state unchanged. -/
inductive Step : SystemState → SystemState → Prop where
  | beginSync (snap : RepoSnapshot) (st : SystemState) :
      Step st ⟨st.published, some (buildGeneration (st.genCounter + 1) snap).1,
        st.genCounter + 1⟩
  | publishGen (st : SystemState) (g : Generation) (h : st.staged = some g) :
      Step st ⟨g, none, st.genCounter⟩
  | readerObserve (st : SystemState) :
      Step st st

/-- States reachable from the initial state by system transitions. -/
inductive Reachable : SystemState → Prop where
  | start : Reachable initState
  | next {s t : SystemState} : Reachable s → Step s t → Reachable t

/-- A catalog and dataset snapshot belong together: same generation tag and
the same tables with the same row counts. -/
def consistentGen (g : Generation) : Prop :=
  g.catalog.generation = g.snapshot.generation ∧
  g.catalog.entries.map (fun e => (e.name, e.rowCount)) =
    g.snapshot.tables.map (fun t => (t.name, t.rows.length))

/-- Modelled from the spec: a whole sync run as one operation — build the
new generation from the remote snapshot and publish it atomically. -/
def syncRun (snap : RepoSnapshot) (st : SystemState) : SystemState :=
  ⟨(buildGeneration (st.genCounter + 1) snap).1, none, st.genCounter + 1⟩

/-- Modelled from the spec: the query_data tool call — a read-only
execution against the published dataset snapshot, leaving the state
unchanged. -/
def query_data (st : SystemState) (sql : String) :
    SystemState × Except ToolErr QueryResult :=
  (st, execute sql st.published.snapshot)

/-! ### File browser: path containment and reading -/

/-- Modelled from the spec: path normalization.  Empty and
current-directory segments are dropped; a parent-directory segment pops the
last kept segment and is rejected when it would escape the root. -/
def normSegs : List (List Char) → List (List Char) → Option (List (List Char))
  | acc, [] => some acc.reverse
  | acc, s :: rest =>
    if s = [] ∨ s = ['.'] then normSegs acc rest
    else if s = ['.', '.'] then
      match acc with
      | [] => none
      | _ :: acc2 => normSegs acc2 rest
    else normSegs (s :: acc) rest

/-- Modelled from the spec: resolve a path argument against the snapshot
root.  Absolute-looking paths and paths escaping the root after
normalization are rejected. -/
def resolvePath (p : List Char) : Option (List (List Char)) :=
  match p with
  | [] => none
  | c :: _ => if c = '/' then none else normSegs [] (splitOnChar '/' p)

/-- Maximum content size returned by read_repo_file. -/
def maxReadSize : Nat := 65536

/-- Modelled from the spec: the read_repo_file tool — normalize and
validate the path, look the file up in the current repository snapshot, and
enforce the size policy. -/
def read_repo_file (snap : RepoSnapshot) (p : List Char) :
    Except ToolErr (List Char) :=
  match resolvePath p with
  | none => .error .invalidPath
  | some segs =>
    match snap.files.find? (fun f => resolvePath f.path == some segs) with
    | none => .error .notFound
    | some f =>
      if maxReadSize < f.content.length then .error .tooLarge
      else .ok f.content

/-! ### Tool dispatcher -/

/-- The five operations behind the DataTools action group. -/
inductive ToolOp where
  | queryOp
  | listTablesOp
  | describeTableOp
  | listFilesOp
  | readFileOp
deriving DecidableEq

/-- One declared parameter of a tool function (name and required flag). -/
structure ParamSpec where
  key : List Char
  required : Bool
deriving DecidableEq

/-- One declared tool function of the action group. -/
structure FunctionDef where
  fnName : List Char
  params : List ParamSpec
deriving DecidableEq

/-- The FunctionSchema of the DataTools action group, as declared in
lib/chat-agent-stack.ts: sql is required for query_data, table_name for
describe_table, file_path for read_repo_file, and path_prefix is optional
for list_repo_files. -/
def functionSchema : List FunctionDef :=
  [ ⟨chars ("query_data"), [⟨chars ("sql"), true⟩]⟩
  , ⟨chars ("list_tables"), []⟩
  , ⟨chars ("describe_table"), [⟨chars ("table_name"), true⟩]⟩
  , ⟨chars ("list_repo_files"), [⟨chars ("path_prefix"), false⟩]⟩
  , ⟨chars ("read_repo_file"), [⟨chars ("file_path"), true⟩]⟩ ]

/-- The schema entry declared for a tool name, if any. -/
def schemaFor (n : List Char) : Option FunctionDef :=
  functionSchema.find? (fun fd => fd.fnName == n)

/-- A named tool call with its string arguments. -/
structure ToolCall where
  cname : List Char
  args : List (List Char × List Char)
deriving DecidableEq

/-- Look up an argument of a tool call by name. -/
def getArg (c : ToolCall) (k : List Char) : Option (List Char) :=
  (c.args.find? (fun a => a.1 == k)).map (fun a => a.2)

/-- A call is missing a required argument of a declared function when some
required parameter has no value. -/
def missingRequired (c : ToolCall) (fd : FunctionDef) : Bool :=
  fd.params.any (fun p => p.required && (getArg c p.key).isNone)

/-- The unique operation a tool name maps to. -/
def opFor (n : List Char) : Option ToolOp :=
  if n = chars ("query_data") then some .queryOp
  else if n = chars ("list_tables") then some .listTablesOp
  else if n = chars ("describe_table") then some .describeTableOp
  else if n = chars ("list_repo_files") then some .listFilesOp
  else if n = chars ("read_repo_file") then some .readFileOp
  else none

/-- Modelled from the spec: the tool dispatcher of the query Lambda.  It
validates the declared required arguments before dispatch, failing with
InvalidArgument (so no operation is invoked) when one is absent, and
otherwise selects exactly one operation. -/
def dispatch (c : ToolCall) : Except ToolErr ToolOp :=
  if c.cname = chars ("query_data") then
    match getArg c (chars ("sql")) with
    | none => .error .invalidArgument
    | some _ => .ok .queryOp
  else if c.cname = chars ("list_tables") then .ok .listTablesOp
  else if c.cname = chars ("describe_table") then
    match getArg c (chars ("table_name")) with
    | none => .error .invalidArgument
    | some _ => .ok .describeTableOp
  else if c.cname = chars ("list_repo_files") then .ok .listFilesOp
  else if c.cname = chars ("read_repo_file") then
    match getArg c (chars ("file_path")) with
    | none => .error .invalidArgument
    | some _ => .ok .readFileOp
  else .error .invalidArgument

/-! ### CDK stack and app entrypoint (embedded from the TypeScript source) -/

/-- Access levels an S3 grant can carry. -/
inductive S3Access where
  | s3read
  | s3write
deriving DecidableEq

/-- One IAM grant on a bucket issued during stack synthesis. -/
structure GrantRecord where
  grantee : List Char
  bucket : List Char
  access : List S3Access
deriving DecidableEq

/-- The grants issued on the data bucket in lib/chat-agent-stack.ts:
dataBucket.grantReadWrite(syncFn) and dataBucket.grantRead(queryFn); no
other principal is granted access to the data bucket. -/
def dataBucketGrants : List GrantRecord :=
  [ ⟨chars ("SyncFunction"), chars ("DataBucket"), [.s3read, .s3write]⟩
  , ⟨chars ("QueryFunction"), chars ("DataBucket"), [.s3read]⟩ ]

/-- The synthesized ChatAgentStack, as far as the claims are concerned. -/
structure StackModel where
  githubRepo : List Char
  githubBranch : List Char
  grants : List GrantRecord
  schema : List FunctionDef
deriving DecidableEq

/-- The ChatAgentStack constructor of lib/chat-agent-stack.ts: defaults
githubBranch to main when the prop is absent, issues the data-bucket
grants, and declares the DataTools function schema. -/
def mkChatAgentStack (repo : List Char) (branchProp : Option (List Char)) :
    StackModel :=
  { githubRepo := repo
  , githubBranch := branchProp.getD (chars ("main"))
  , grants := dataBucketGrants
  , schema := functionSchema }

/-- The tryGetContext lookup of the CDK app node. -/
def tryGetContext (ctx : List (List Char × List Char)) (k : List Char) :
    Option (List Char) :=
  (ctx.find? (fun a => a.1 == k)).map (fun a => a.2)

/-- The app entrypoint of bin/app.ts: reads the githubRepo context value
and throws (before constructing any stack) when it is falsy — absent or the
empty string; otherwise constructs the stack, passing the githubBranch
context value with the nullish default main. -/
def mkApp (ctx : List (List Char × List Char)) : Except (List Char) StackModel :=
  match tryGetContext ctx (chars ("githubRepo")) with
  | none => .error (chars ("Missing required context: githubRepo"))
  | some repo =>
    if repo = [] then .error (chars ("Missing required context: githubRepo"))
    else
      .ok (mkChatAgentStack repo
        (some ((tryGetContext ctx (chars ("githubBranch"))).getD (chars ("main")))))

/-! ### Concrete data used to exercise the theorems -/

/-- A 36-row table body, as in the sample sales.csv. -/
def demoRows36 : List (List (List Char)) := List.replicate 36 [chars ("x")]

/-- A 150-row table body, exceeding the row cap. -/
def demoRows150 : List (List (List Char)) := List.replicate 150 [chars ("x")]

/-- A 36-row sales table. -/
def demoTable36 : Table :=
  ⟨chars ("sales"), chars ("data/sales.csv"), [chars ("amount")], demoRows36⟩

/-- A 150-row table. -/
def demoTable150 : Table :=
  ⟨chars ("big"), chars ("data/big.csv"), [chars ("amount")], demoRows150⟩

/-- A dataset snapshot holding both demo tables. -/
def demoDS : DatasetSnapshot := ⟨[demoTable36, demoTable150], 7⟩

/-- A published system state over the demo dataset. -/
def demoState : SystemState :=
  ⟨⟨catalogOf 7 [demoTable36, demoTable150], demoDS⟩, none, 7⟩

/-- A small repository snapshot with one CSV file and one text file. -/
def demoRepo : RepoSnapshot :=
  ⟨[⟨chars ("data/sales.csv"), chars ("a,b\n1,2\n3,4")⟩,
    ⟨chars ("README.md"), chars ("hello")⟩]⟩

/-- A state captured in the middle of a sync run: the new generation is
staged but not yet published. -/
def midSyncState : SystemState :=
  ⟨initState.published, some (buildGeneration 1 demoRepo).1, 1⟩

/-! ### Helper lemmas -/

/-- A successful SELECT evaluation implies the statement kind is select. -/
theorem selectRows_stmtKind {sql : String} {ds : DatasetSnapshot}
    {x : List (List Char) × List (List (List Char))}
    (h : selectRows sql ds = .ok x) : stmtKindOf sql = .select := by
  unfold selectRows at h
  split at h
  next w1 w2 w3 w4 heq =>
    split_ifs at h with hg
    simp [stmtKindOf, heq, hg.1]
  next => cases h

/-- A digit character is not a sign character. -/
theorem digit_ne_sign (c : Char) (h : c.isDigit = true) : ¬(c = '-' ∨ c = '+') := by
  rintro (rfl | rfl) <;> exact absurd h (by decide)

/-- The generation built by one reindex pass is internally consistent. -/
theorem consistent_buildGeneration (gen : Nat) (snap : RepoSnapshot) :
    consistentGen (buildGeneration gen snap).1 := by
  refine ⟨rfl, ?_⟩
  simp only [buildGeneration, catalogOf, consistentGen, List.map_map]
  rfl

/-- Every reachable state has a consistent published generation and a
consistent staged generation (when one exists). -/
theorem reachable_invariant (st : SystemState) (h : Reachable st) :
    consistentGen st.published ∧
    ∀ g, st.staged = some g → consistentGen g := by
  induction h with
  | start =>
    refine ⟨consistent_buildGeneration 0 ⟨[]⟩, ?_⟩
    intro g hg
    simp [initState] at hg
  | next _ hstep ih =>
    cases hstep with
    | beginSync snap st2 =>
      refine ⟨ih.1, ?_⟩
      intro g hg
      simp only [Option.some_inj] at hg
      exact hg ▸ consistent_buildGeneration _ snap
    | publishGen st2 g2 hst =>
      refine ⟨ih.2 g2 hst, ?_⟩
      intro g hg
      cases hg
    | readerObserve st2 => exact ih

/-- Per-file behaviour of the indexing loop: the produced tables are
exactly the clean files, the failures exactly the bad ones, in order. -/
theorem indexAll_spec (l : List RawFile) :
    (indexAll l).1.map Table.srcPath = (l.filter parseOK).map RawFile.path ∧
    (indexAll l).2.map IndexFailure.path =
      (l.filter (fun f => !parseOK f)).map RawFile.path := by
  induction l with
  | nil => exact ⟨rfl, rfl⟩
  | cons f fs ih =>
    cases hp : parseCSV f.content with
    | error e =>
      have hOK : parseOK f = false := by simp [parseOK, hp, Except.toOption]
      simp [indexAll, indexFile, hp, hOK, ih.1, ih.2]
    | ok v =>
      obtain ⟨hdr, rows⟩ := v
      have hOK : parseOK f = true := by simp [parseOK, hp, Except.toOption]
      simp [indexAll, indexFile, hp, hOK, ih.1, ih.2]

/-- An all-quantified Bool test fails on a list containing a failing
element. -/
theorem all_false_of_mem {α : Type} {p : α → Bool} {l : List α} (x : α)
    (hx : x ∈ l) (hp : p x = false) : l.all p = false := by
  cases hall : l.all p
  · rfl
  · exact absurd (List.all_eq_true.mp hall x hx) (by simp [hp])

/-- A non-empty list is not isEmpty. -/
theorem isEmpty_false_of_ne_nil {α : Type} {l : List α} (h : l ≠ []) :
    l.isEmpty = false := by
  cases l
  · exact absurd rfl h
  · rfl

/-- A boolean literal is neither an integer, nor a numeric, nor a date
literal. -/
theorem boolLit_excl (s : List Char) (h : isBoolLit s = true) :
    isIntLit s = false ∧ isNumericLit s = false ∧ isDateLit s = false := by
  have hm : s ∈ boolLits := List.elem_iff.mp h
  fin_cases hm <;> decide

/-- Sign stripping is the identity on a digit-headed list. -/
theorem stripSign_of_digit {c : Char} (cs : List Char) (h : c.isDigit = true) :
    stripSign (c :: cs) = c :: cs := by
  simp [stripSign, digit_ne_sign c h]

/-- A date literal is neither an integer nor a numeric literal. -/
theorem dateLit_excl (s : List Char) (h : isDateLit s = true) :
    isIntLit s = false ∧ isNumericLit s = false := by
  unfold isDateLit at h
  split at h
  next y1 y2 y3 y4 h1 m1 m2 h2 d1 d2 =>
    simp only [Bool.and_eq_true, beq_iff_eq] at h
    obtain ⟨⟨hall, hh1⟩, hh2⟩ := h
    subst hh1 hh2
    have hy1 : y1.isDigit = true := List.all_eq_true.mp hall y1 (by simp)
    constructor
    · have hfa : ([y1, y2, y3, y4, '-', m1, m2, '-', d1, d2].all Char.isDigit) = false :=
        all_false_of_mem '-' (by simp) (by decide)
      simp [isIntLit, stripSign_of_digit _ hy1, hfa]
    · have hfa : ([y1, y2, y3, y4, '-', m1, m2, '-', d1, d2].all
          (fun c => c.isDigit || c == '.')) = false :=
        all_false_of_mem '-' (by simp) (by decide)
      simp [isNumericLit, stripSign_of_digit _ hy1, hfa]
  next => exact Bool.noConfusion h

/-! ### Claims -/

/-- C1.  Every SQL statement that attempts data modification, schema
modification, or multi-statement execution fails with PolicyViolation, and
the dataset snapshot — including every table's name and row count — is
unchanged by the call. -/
theorem c1_policy_violation_state_unchanged (sql : String) (st : SystemState)
    (h : multiStatement sql = true ∨ isModifyingKind (stmtKindOf sql) = true) :
    query_data st sql = (st, .error .policyViolation) ∧
    (query_data st sql).1.published.snapshot.tables.map (fun t => (t.name, t.rows.length)) =
      st.published.snapshot.tables.map (fun t => (t.name, t.rows.length)) := by
  have hex : execute sql st.published.snapshot = .error .policyViolation := by
    rcases h with h | h
    · simp [execute, h]
    · by_cases hm : multiStatement sql = true
      · simp [execute, hm]
      · cases hk : stmtKindOf sql <;> simp_all [execute, isModifyingKind]
  exact ⟨by simp [query_data, hex], rfl⟩

/-- C1 witness: DELETE FROM sales, DROP TABLE sales, and a two-statement
request all fail with PolicyViolation and leave the demo state intact. -/
theorem c1_witness :
    query_data demoState ("DELETE FROM sales") = (demoState, .error .policyViolation) ∧
    query_data demoState ("DROP TABLE sales") = (demoState, .error .policyViolation) ∧
    query_data demoState ("SELECT 1; SELECT 2") = (demoState, .error .policyViolation) :=
  ⟨(c1_policy_violation_state_unchanged ("DELETE FROM sales") demoState
      (Or.inr (by decide))).1,
   (c1_policy_violation_state_unchanged ("DROP TABLE sales") demoState
      (Or.inr (by decide))).1,
   (c1_policy_violation_state_unchanged ("SELECT 1; SELECT 2") demoState
      (Or.inl (by decide))).1⟩

/-- C2.  A query executed by query_data returns at most rowCap rows: the
result is the rowCap-prefix of the full result in input order, the
truncation flag is set exactly when the full result exceeds the cap, and
truncation is a successful result, not an error. -/
theorem c2_row_cap (sql : String) (ds : DatasetSnapshot)
    (cols : List (List Char)) (raw : List (List (List Char)))
    (hsel : selectRows sql ds = .ok (cols, raw))
    (hmulti : multiStatement sql = false) :
    execute sql ds = .ok ⟨cols, raw.take rowCap, decide (rowCap < raw.length)⟩ ∧
    (raw.length ≤ rowCap →
      raw.take rowCap = raw ∧ decide (rowCap < raw.length) = false) ∧
    (rowCap < raw.length →
      (raw.take rowCap).length = rowCap ∧ decide (rowCap < raw.length) = true) ∧
    raw.take rowCap ++ raw.drop rowCap = raw := by
  refine ⟨?_, ?_, ?_, List.take_append_drop rowCap raw⟩
  · simp [execute, hmulti, selectRows_stmtKind hsel, hsel]
  · intro hle
    exact ⟨List.take_of_length_le hle, decide_eq_false_iff_not.mpr (by omega)⟩
  · intro hlt
    refine ⟨?_, decide_eq_true hlt⟩
    rw [List.length_take]
    omega

/-- C2 witness: SELECT * against the 36-row table returns all 36 rows with
the flag clear; against the 150-row table exactly the first 100 rows with
the flag set. -/
theorem c2_witness :
    execute ("SELECT * FROM sales") demoDS = .ok ⟨[chars ("amount")], demoRows36, false⟩ ∧
    execute ("SELECT * FROM big") demoDS =
      .ok ⟨[chars ("amount")], demoRows150.take rowCap, true⟩ ∧
    (demoRows150.take rowCap).length = rowCap := by
  refine ⟨?_, ?_, ?_⟩
  · have h := (c2_row_cap ("SELECT * FROM sales") demoDS [chars ("amount")] demoRows36
      (by decide) (by decide)).1
    rw [h]; decide
  · have h := (c2_row_cap ("SELECT * FROM big") demoDS [chars ("amount")] demoRows150
      (by decide) (by decide)).1
    rw [h]; decide
  · exact ((c2_row_cap ("SELECT * FROM big") demoDS [chars ("amount")] demoRows150
      (by decide) (by decide)).2.2.1 (by decide)).1

/-- C7.  Sync is idempotent on an unchanged input: running sync twice on
the same remote snapshot yields a second catalog with identical entries
(same table names, inferred schemas and row counts) and an identical
dataset, because indexing and schema inference are deterministic. -/
theorem c7_sync_idempotent (snap : RepoSnapshot) (st : SystemState) :
    (syncRun snap (syncRun snap st)).published.catalog.entries =
      (syncRun snap st).published.catalog.entries ∧
    (syncRun snap (syncRun snap st)).published.snapshot.tables =
      (syncRun snap st).published.snapshot.tables ∧
    buildTables snap = buildTables snap :=
  ⟨rfl, rfl, rfl⟩

/-- C9.  In the synthesized stack, only the Sync Lambda is granted write
access to the data bucket; the Query Lambda is granted read access only,
and the query path leaves the system state unchanged. -/
theorem c9_query_path_read_only (repo : List Char) (branchProp : Option (List Char)) :
    ((mkChatAgentStack repo branchProp).grants.filter
        (fun g => g.access.contains S3Access.s3write)).map GrantRecord.grantee =
      [chars ("SyncFunction")] ∧
    ((mkChatAgentStack repo branchProp).grants.filter
        (fun g => g.grantee == chars ("QueryFunction"))).map GrantRecord.access =
      [[S3Access.s3read]] ∧
    ∀ (st : SystemState) (sql : String), (query_data st sql).1 = st :=
  ⟨rfl, rfl, fun _ _ => rfl⟩

/-- C3.  In every reachable state of the system — including states observed
while a sync run is staged but not yet published — the published catalog
and dataset snapshot belong to the same generation: same generation tag and
the same tables with matching row counts, so a reader never observes a
table present in one but absent or mismatched in the other. -/
theorem c3_catalog_snapshot_consistent (st : SystemState) (h : Reachable st) :
    consistentGen st.published :=
  (reachable_invariant st h).1

/-- C3 witness: a concrete state reached in the middle of a sync run (new
generation staged, not yet published) still presents a consistent published
pair to readers. -/
theorem c3_witness : consistentGen midSyncState.published :=
  c3_catalog_snapshot_consistent midSyncState
    (Reachable.next Reachable.start (Step.beginSync demoRepo initState))

/-- C4.  Reindexing a snapshot in which some tabular files fail to parse
publishes a catalog containing exactly the tables of the well-formed
eligible files (each failed table omitted), and returns one indexing
failure naming each failed file, without aborting the run. -/
theorem c4_partial_failure_isolation (gen : Nat) (snap : RepoSnapshot) :
    (catalogOf gen (buildTables snap).1).entries.map TableEntry.srcPath =
      ((csvFiles snap).filter parseOK).map RawFile.path ∧
    (buildTables snap).1.map Table.srcPath =
      ((csvFiles snap).filter parseOK).map RawFile.path ∧
    (buildTables snap).2.map IndexFailure.path =
      ((csvFiles snap).filter (fun f => !parseOK f)).map RawFile.path := by
  have h := indexAll_spec (csvFiles snap)
  refine ⟨?_, h.1, h.2⟩
  simpa only [catalogOf, List.map_map] using h.1

/-- C5.  A path argument that resolves outside the snapshot root after
normalization fails with an invalid-path error, and read_repo_file never
returns content from outside the snapshot: any content it returns is the
content of a stored file of the snapshot. -/
theorem c5_path_containment :
    (∀ (snap : RepoSnapshot) (p : List Char), resolvePath p = none →
      read_repo_file snap p = .error .invalidPath) ∧
    (∀ (snap : RepoSnapshot) (p : List Char) (content : List Char),
      read_repo_file snap p = .ok content →
      ∃ f ∈ snap.files, f.content = content ∧ resolvePath f.path = resolvePath p) := by
  constructor
  · intro snap p h
    simp [read_repo_file, h]
  · intro snap p content h
    unfold read_repo_file at h
    split at h
    next => cases h
    next segs hr =>
      split at h
      next => cases h
      next f hf =>
        split_ifs at h with hsize
        cases h
        refine ⟨f, List.mem_of_find?_eq_some hf, rfl, ?_⟩
        rw [hr]
        exact beq_iff_eq.mp
          (@List.find?_some _ (fun f => resolvePath f.path == some segs) f snap.files hf)

/-- C5 witness: the traversal attempts ../../etc/passwd, ./a/../../b, and
the absolute-looking /etc/passwd all fail with the invalid-path error. -/
theorem c5_witness :
    read_repo_file demoRepo (chars ("../../etc/passwd")) = .error .invalidPath ∧
    read_repo_file demoRepo (chars ("./a/../../b")) = .error .invalidPath ∧
    read_repo_file demoRepo (chars ("/etc/passwd")) = .error .invalidPath :=
  ⟨c5_path_containment.1 demoRepo (chars ("../../etc/passwd")) (by decide),
   c5_path_containment.1 demoRepo (chars ("./a/../../b")) (by decide),
   c5_path_containment.1 demoRepo (chars ("/etc/passwd")) (by decide)⟩

/-- C6.  For every indexed column the inferred type follows the stated
policy over the sampled non-null values: all-integer infers integer;
all-numeric with a non-integer infers float; all boolean literals infers
boolean; all matching the date pattern infers date; otherwise text; an
entirely-null column is unknown. -/
theorem c6_schema_inference (vals : List (Option (List Char))) :
    (sampledNonNull vals = [] → inferColType vals = .unknown) ∧
    (sampledNonNull vals ≠ [] → (sampledNonNull vals).all isIntLit = true →
      inferColType vals = .integer) ∧
    (sampledNonNull vals ≠ [] → (sampledNonNull vals).all isNumericLit = true →
      (sampledNonNull vals).all isIntLit = false → inferColType vals = .float) ∧
    (sampledNonNull vals ≠ [] → (sampledNonNull vals).all isBoolLit = true →
      inferColType vals = .boolean) ∧
    (sampledNonNull vals ≠ [] → (sampledNonNull vals).all isDateLit = true →
      inferColType vals = .date) ∧
    (sampledNonNull vals ≠ [] → (sampledNonNull vals).all isIntLit = false →
      (sampledNonNull vals).all isNumericLit = false →
      (sampledNonNull vals).all isBoolLit = false →
      (sampledNonNull vals).all isDateLit = false →
      inferColType vals = .text) := by
  refine ⟨?_, ?_, ?_, ?_, ?_, ?_⟩
  · intro h
    simp [inferColType, h]
  · intro hne hint
    simp [inferColType, isEmpty_false_of_ne_nil hne, hint]
  · intro hne hnum hint
    simp [inferColType, isEmpty_false_of_ne_nil hne, hint, hnum]
  · intro hne hbool
    obtain ⟨h0, tl, hnn⟩ : ∃ h0 tl, sampledNonNull vals = h0 :: tl := by
      rcases hx : sampledNonNull vals with _ | ⟨a, b⟩
      · exact absurd hx hne
      · exact ⟨a, b, rfl⟩
    have hb0 : isBoolLit h0 = true :=
      List.all_eq_true.mp hbool h0 (by rw [hnn]; exact List.mem_cons_self h0 tl)
    obtain ⟨hi0, hn0, hd0⟩ := boolLit_excl h0 hb0
    have hint : (sampledNonNull vals).all isIntLit = false := by
      rw [hnn]; exact all_false_of_mem h0 (List.mem_cons_self h0 tl) hi0
    have hnum : (sampledNonNull vals).all isNumericLit = false := by
      rw [hnn]; exact all_false_of_mem h0 (List.mem_cons_self h0 tl) hn0
    simp [inferColType, isEmpty_false_of_ne_nil hne, hint, hnum, hbool]
  · intro hne hdate
    obtain ⟨h0, tl, hnn⟩ : ∃ h0 tl, sampledNonNull vals = h0 :: tl := by
      rcases hx : sampledNonNull vals with _ | ⟨a, b⟩
      · exact absurd hx hne
      · exact ⟨a, b, rfl⟩
    have hd0 : isDateLit h0 = true :=
      List.all_eq_true.mp hdate h0 (by rw [hnn]; exact List.mem_cons_self h0 tl)
    obtain ⟨hi0, hn0⟩ := dateLit_excl h0 hd0
    have hint : (sampledNonNull vals).all isIntLit = false := by
      rw [hnn]; exact all_false_of_mem h0 (List.mem_cons_self h0 tl) hi0
    have hnum : (sampledNonNull vals).all isNumericLit = false := by
      rw [hnn]; exact all_false_of_mem h0 (List.mem_cons_self h0 tl) hn0
    have hb0 : isBoolLit h0 = false := by
      cases hbb : isBoolLit h0
      · rfl
      · exact absurd hd0 (by simp [(boolLit_excl h0 hbb).2.2])
    have hbool : (sampledNonNull vals).all isBoolLit = false := by
      rw [hnn]; exact all_false_of_mem h0 (List.mem_cons_self h0 tl) hb0
    simp [inferColType, isEmpty_false_of_ne_nil hne, hint, hnum, hbool, hdate]
  · intro hne hint hnum hbool hdate
    simp [inferColType, isEmpty_false_of_ne_nil hne, hint, hnum, hbool, hdate]

/-- C6 witness: the spec's example columns infer integer, float, date,
text, boolean and unknown respectively. -/
theorem c6_witness :
    inferColType [some (chars ("1")), some (chars ("2")), some (chars ("3"))] = .integer ∧
    inferColType [some (chars ("1")), some (chars ("2.5")), some (chars ("3"))] = .float ∧
    inferColType [some (chars ("2023-01-01")), some (chars ("2023-02-01"))] = .date ∧
    inferColType [some (chars ("1")), some (chars ("a")), some (chars ("3"))] = .text ∧
    inferColType [some (chars ("true")), some (chars ("FALSE"))] = .boolean ∧
    inferColType [none, none] = .unknown :=
  ⟨(c6_schema_inference _).2.1 (by decide) (by decide),
   (c6_schema_inference _).2.2.1 (by decide) (by decide) (by decide),
   (c6_schema_inference _).2.2.2.2.1 (by decide) (by decide),
   (c6_schema_inference _).2.2.2.2.2 (by decide) (by decide) (by decide) (by decide)
     (by decide),
   (c6_schema_inference _).2.2.2.1 (by decide) (by decide),
   (c6_schema_inference _).1 (by decide)⟩

/-- C8.  For every named tool call covered by the declared function schema,
the dispatcher validates the declared required arguments before dispatch:
when one is absent the call fails with InvalidArgument and no operation is
selected; otherwise exactly one operation — the one the tool name maps
to — is dispatched. -/
theorem c8_dispatch_validation (c : ToolCall) (fd : FunctionDef)
    (h : schemaFor c.cname = some fd) :
    (missingRequired c fd = true → dispatch c = .error .invalidArgument) ∧
    (missingRequired c fd = false →
      ∃ op, dispatch c = .ok op ∧ opFor c.cname = some op) := by
  have h2 : functionSchema.find? (fun fd => fd.fnName == c.cname) = some fd := h
  have h3 := List.find?_some h2
  have hcn : c.cname = fd.fnName := (beq_iff_eq.mp h3).symm
  have hmem : fd ∈ functionSchema := List.mem_of_find?_eq_some h2
  fin_cases hmem
  · constructor
    · intro hm
      simp only [missingRequired, List.any_cons, List.any_nil, Bool.or_false,
        Bool.true_and] at hm
      have hg : getArg c (chars ("sql")) = none := Option.isNone_iff_eq_none.mp hm
      simp +decide [dispatch, hcn, hg]
    · intro hm
      simp only [missingRequired, List.any_cons, List.any_nil, Bool.or_false,
        Bool.true_and] at hm
      rcases hg : getArg c (chars ("sql")) with _ | v
      · rw [hg] at hm; simp at hm
      · exact ⟨.queryOp, by simp +decide [dispatch, hcn, hg],
          by simp +decide [opFor, hcn]⟩
  · constructor
    · intro hm
      simp only [missingRequired, List.any_nil] at hm
      exact Bool.noConfusion hm
    · intro _
      exact ⟨.listTablesOp, by simp +decide [dispatch, hcn],
        by simp +decide [opFor, hcn]⟩
  · constructor
    · intro hm
      simp only [missingRequired, List.any_cons, List.any_nil, Bool.or_false,
        Bool.true_and] at hm
      have hg : getArg c (chars ("table_name")) = none := Option.isNone_iff_eq_none.mp hm
      simp +decide [dispatch, hcn, hg]
    · intro hm
      simp only [missingRequired, List.any_cons, List.any_nil, Bool.or_false,
        Bool.true_and] at hm
      rcases hg : getArg c (chars ("table_name")) with _ | v
      · rw [hg] at hm; simp at hm
      · exact ⟨.describeTableOp, by simp +decide [dispatch, hcn, hg],
          by simp +decide [opFor, hcn]⟩
  · constructor
    · intro hm
      simp only [missingRequired, List.any_cons, List.any_nil, Bool.or_false,
        Bool.false_and] at hm
      exact Bool.noConfusion hm
    · intro _
      exact ⟨.listFilesOp, by simp +decide [dispatch, hcn],
        by simp +decide [opFor, hcn]⟩
  · constructor
    · intro hm
      simp only [missingRequired, List.any_cons, List.any_nil, Bool.or_false,
        Bool.true_and] at hm
      have hg : getArg c (chars ("file_path")) = none := Option.isNone_iff_eq_none.mp hm
      simp +decide [dispatch, hcn, hg]
    · intro hm
      simp only [missingRequired, List.any_cons, List.any_nil, Bool.or_false,
        Bool.true_and] at hm
      rcases hg : getArg c (chars ("file_path")) with _ | v
      · rw [hg] at hm; simp at hm
      · exact ⟨.readFileOp, by simp +decide [dispatch, hcn, hg],
          by simp +decide [opFor, hcn]⟩

/-- C8 witness: query_data without sql fails with InvalidArgument, and a
well-formed describe_table call dispatches to its unique operation. -/
theorem c8_witness :
    dispatch ⟨chars ("query_data"), []⟩ = .error .invalidArgument ∧
    ∃ op, dispatch ⟨chars ("describe_table"), [(chars ("table_name"), chars ("sales"))]⟩ =
      .ok op ∧
      opFor (chars ("describe_table")) = some op :=
  ⟨(c8_dispatch_validation ⟨chars ("query_data"), []⟩
      ⟨chars ("query_data"), [⟨chars ("sql"), true⟩]⟩ (by decide)).1 (by decide),
   (c8_dispatch_validation ⟨chars ("describe_table"), [(chars ("table_name"), chars ("sales"))]⟩
      ⟨chars ("describe_table"), [⟨chars ("table_name"), true⟩]⟩ (by decide)).2 (by decide)⟩

/-- C10 counterexample: the claim states that whenever the githubRepo
context value is present the stack is constructed with it.  The context
value can be present and empty (cdk -c githubRepo=), and then the app
throws (the falsy check in bin/app.ts), so no stack is constructed. -/
theorem c10_counterexample :
    (tryGetContext [(chars ("githubRepo"), [])] (chars ("githubRepo"))).isSome = true ∧
    mkApp [(chars ("githubRepo"), [])] =
      .error (chars ("Missing required context: githubRepo")) := by
  decide

/-- C10 (amended).  If the githubRepo context value is absent or empty the
app fails before constructing any stack; if it is present and non-empty the
stack is constructed with that repo, and githubBranch defaults to main when
no branch context is given. -/
theorem c10_app_context_check (ctx : List (List Char × List Char)) :
    (tryGetContext ctx (chars ("githubRepo")) = none →
      mkApp ctx = .error (chars ("Missing required context: githubRepo"))) ∧
    (tryGetContext ctx (chars ("githubRepo")) = some [] →
      mkApp ctx = .error (chars ("Missing required context: githubRepo"))) ∧
    (∀ repo, tryGetContext ctx (chars ("githubRepo")) = some repo → repo ≠ [] →
      mkApp ctx = .ok (mkChatAgentStack repo
        (some ((tryGetContext ctx (chars ("githubBranch"))).getD (chars ("main"))))) ∧
      (tryGetContext ctx (chars ("githubBranch")) = none →
        (mkApp ctx).toOption.map StackModel.githubBranch = some (chars ("main")))) := by
  refine ⟨?_, ?_, ?_⟩
  · intro h
    simp [mkApp, h]
  · intro h
    simp [mkApp, h]
  · intro repo h hne
    have hok : mkApp ctx = .ok (mkChatAgentStack repo
        (some ((tryGetContext ctx (chars ("githubBranch"))).getD (chars ("main"))))) := by
      simp [mkApp, h, hne]
    refine ⟨hok, ?_⟩
    intro hb
    rw [hok]
    simp [hb, mkChatAgentStack, Except.toOption]

/-- C10 witness: with only githubRepo given, the app constructs the stack
with that repo and branch main; with an empty context, it fails. -/
theorem c10_witness :
    mkApp [(chars ("githubRepo"), chars ("owner/repo"))] =
      .ok (mkChatAgentStack (chars ("owner/repo")) (some (chars ("main")))) ∧
    mkApp [] = .error (chars ("Missing required context: githubRepo")) :=
  ⟨((c10_app_context_check [(chars ("githubRepo"), chars ("owner/repo"))]).2.2
      (chars ("owner/repo")) (by decide) (by decide)).1,
   (c10_app_context_check []).1 (by decide)⟩

end BedrockAgent
